import Mathlib

/-
Verification of the workflow dispatch, entity extraction, and orchestration
core of the Friday voice assistant.  The definitions below are a shallow
embedding of the Python sources:

  src/workflows/base.py   (Workflow, WorkflowTrigger, WorkflowResult,
                           WorkflowManager, DoorbellWorkflow, ThermostatWorkflow)
  src/core/assistant.py   (VoiceAssistant.process_input, _extract_entities,
                           handle_activation, run_single_interaction)
  src/llm/providers.py    (AnthropicLLM.generate_response, conversation history)
  src/config/settings.py  (LLMConfig.max_history)

Python strings are Lean Strings; Python dicts are insertion-ordered
association lists; re.search is modelled by a Brzozowski-derivative matcher
over a regex AST transcribed from the pattern literals; exceptions are the
Except monad.
-/

set_option linter.unusedVariables false

namespace Friday

/-- A single-quote character as a string, used to assemble the string
literals of the source that contain one. -/
def sq : String := (Char.ofNat 39).toString

/-- Python str.lower() for the ASCII strings this program manipulates,
written over the character list so that it evaluates by reduction. -/
def pyLower (s : String) : String := String.mk (s.data.map Char.toLower)

/-- Boolean test that list a is a prefix of list b (needle first). -/
def listStartsWith : List Char → List Char → Bool
  | [], _ => true
  | _ :: _, [] => false
  | a :: as, b :: bs => a == b && listStartsWith as bs

/-- Boolean test that needle occurs contiguously inside hay; the model of
the Python substring operator. -/
def listIn (needle : List Char) : List Char → Bool
  | [] => needle.isEmpty
  | c :: rest => listStartsWith needle (c :: rest) || listIn needle rest

/-- Python needle in hay, on strings. -/
def strIn (needle hay : String) : Bool := listIn needle.data hay.data

/-! ### Regular expressions

An AST for the fragment of Python regex syntax the trigger patterns use:
literals, concatenation, alternation, the dot, star, plus and the digit
class.  Matching is by Brzozowski derivatives; re.search semantics (match
anywhere in the text, not a full match) is reSearch. -/

/-- Regex AST: emp rejects everything, eps accepts the empty string, pred
accepts one character satisfying the predicate. -/
inductive Regex where
  | emp : Regex
  | eps : Regex
  | pred : (Char → Bool) → Regex
  | cat : Regex → Regex → Regex
  | alt : Regex → Regex → Regex
  | star : Regex → Regex

/-- Whether the regex accepts the empty string. -/
def nullable : Regex → Bool
  | .emp => false
  | .eps => true
  | .pred _ => false
  | .cat r s => nullable r && nullable s
  | .alt r s => nullable r || nullable s
  | .star _ => true

/-- Brzozowski derivative of a regex by one character. -/
def deriv : Regex → Char → Regex
  | .emp, _ => .emp
  | .eps, _ => .emp
  | .pred p, c => if p c then .eps else .emp
  | .cat r s, c =>
      if nullable r then .alt (.cat (deriv r c) s) (deriv s c)
      else .cat (deriv r c) s
  | .alt r s, c => .alt (deriv r c) (deriv s c)
  | .star r, c => .cat (deriv r c) (.star r)

/-- Whether some prefix of the input is accepted by the regex. -/
def matchesHere (r : Regex) : List Char → Bool
  | [] => nullable r
  | c :: cs => nullable r || matchesHere (deriv r c) cs

/-- Whether the regex accepts some contiguous substring of the input: the
boolean outcome of Python re.search. -/
def reSearch (r : Regex) : List Char → Bool
  | [] => matchesHere r []
  | c :: cs => matchesHere r (c :: cs) || reSearch r cs

/-- re.search on a string. -/
def reSearchStr (r : Regex) (s : String) : Bool := reSearch r s.data

/-- Declarative acceptance relation of the regex AST, used to state what
the executable matcher decides. -/
inductive RMatch : Regex → List Char → Prop where
  | eps : RMatch .eps []
  | pred {p : Char → Bool} {c : Char} : p c = true → RMatch (.pred p) [c]
  | catM {r s : Regex} {l1 l2 : List Char} :
      RMatch r l1 → RMatch s l2 → RMatch (.cat r s) (l1 ++ l2)
  | altL {r s : Regex} {l : List Char} : RMatch r l → RMatch (.alt r s) l
  | altR {r s : Regex} {l : List Char} : RMatch s l → RMatch (.alt r s) l
  | starNil {r : Regex} : RMatch (.star r) []
  | starCons {r : Regex} {l1 l2 : List Char} :
      RMatch r l1 → RMatch (.star r) l2 → RMatch (.star r) (l1 ++ l2)

/-- Regex accepting exactly one given character. -/
def rchar (c : Char) : Regex := .pred (fun x => x == c)

/-- Regex accepting exactly the given string literal. -/
def rstr (s : String) : Regex := s.data.foldr (fun c acc => .cat (rchar c) acc) .eps

/-- n-ary alternation, for transcribing (a|b|c) groups. -/
def ralt : List Regex → Regex
  | [] => .emp
  | [r] => r
  | r :: rest => .alt r (ralt rest)

/-- n-ary concatenation. -/
def rcat : List Regex → Regex
  | [] => .eps
  | [r] => r
  | r :: rest => .cat r (rcat rest)

/-- The regex dot: any character except a newline. -/
def rdot : Regex := .pred (fun c => !(c == Char.ofNat 10))

/-- The Python digit class backslash-d (ASCII digits for this program). -/
def rdigit : Regex := .pred Char.isDigit

/-- One-or-more repetition. -/
def rplus (r : Regex) : Regex := .cat r (.star r)

/-- Zero-or-more arbitrary characters, the dot-star idiom. -/
def rdotStar : Regex := .star rdot

/-- Case-insensitive reading of a regex: each character predicate also
accepts the other-case variant.  Used only to state what the spec claims
pattern matching does; the source itself never applies re.IGNORECASE. -/
def Regex.ci : Regex → Regex
  | .emp => .emp
  | .eps => .eps
  | .pred p => .pred (fun c => p c.toLower || p c.toUpper)
  | .cat r s => .cat r.ci s.ci
  | .alt r s => .alt r.ci s.ci
  | .star r => .star r.ci

/-! ### Python values and dicts -/

/-- The Python values that flow through entity bags and result data:
strings, ints, and None. -/
inductive PyVal where
  | s : String → PyVal
  | n : Nat → PyVal
  | none : PyVal
deriving DecidableEq

/-- Python str() on a PyVal. -/
def pyStr : PyVal → String
  | .s v => v
  | .n v => toString v
  | .none => "None"

/-- Python truthiness of a PyVal: None, empty string and 0 are falsy. -/
def pyTruthy : PyVal → Bool
  | .s v => !v.isEmpty
  | .n v => !(v == 0)
  | .none => false

/-- Lookup in an insertion-ordered association list, the model of a Python
dict read d[k] / d.get(k). -/
def dictGet {α : Type} : List (String × α) → String → Option α
  | [], _ => Option.none
  | (k2, v) :: rest, k => if k2 == k then some v else dictGet rest k

/-- Python d.get(k, default). -/
def dictGetD {α : Type} (d : List (String × α)) (k : String) (dflt : α) : α :=
  (dictGet d k).getD dflt

/-- Python dict assignment d[k] = v: overwriting an existing key keeps its
original position, a new key is appended. -/
def dictSet {α : Type} : List (String × α) → String → α → List (String × α)
  | [], k, v => [(k, v)]
  | (k2, w) :: rest, k, v =>
      if k2 == k then (k2, v) :: rest else (k2, w) :: dictSet rest k v

/-- Python or on an optional string against a string default: the left
operand wins only when it is present and truthy (non-empty). -/
def pyStrOr (a : Option String) (b : String) : String :=
  match a with
  | some v => if v.isEmpty then b else v
  | Option.none => b

/-! ### Workflow data model (src/workflows/base.py) -/

/-- Status of a workflow execution.  partly models the source PARTIAL
status (some actions succeeded); that word is reserved in Lean. -/
inductive WorkflowStatus where
  | success : WorkflowStatus
  | failure : WorkflowStatus
  | partly : WorkflowStatus
  | pending : WorkflowStatus
deriving DecidableEq

/-- Result of a workflow execution. -/
structure WorkflowResult where
  status : WorkflowStatus
  message : String
  data : Option (List (String × PyVal)) := Option.none
  error : Option String := Option.none
deriving DecidableEq

/-- Defines how a workflow is triggered.  Patterns are kept as transcribed
regex ASTs of the source pattern literals. -/
structure WorkflowTrigger where
  keywords : List String := []
  patterns : List Regex := []
  examples : List String := []

/-- Exceptions are modelled by their message. -/
abbrev PyExn := String

/-- An entity bag is a Python dict from attribute names to values. -/
abbrev Entities := List (String × PyVal)

/-- Base class for all workflows: a name, a description, a trigger, and an
execute behavior that may raise. -/
structure Workflow where
  name : String
  description : String
  trigger : WorkflowTrigger
  execute : String → Entities → Except PyExn WorkflowResult

/-- Workflow.matches: any keyword is a case-insensitive substring of the
text, or any pattern re.search-matches the lowercased text.  The pattern
search itself is case-sensitive: only the text is lowercased. -/
def Workflow.matches (w : Workflow) (text : String) : Bool :=
  let textLower := pyLower text
  w.trigger.keywords.any (fun keyword => strIn (pyLower keyword) textLower) ||
    w.trigger.patterns.any (fun pattern => reSearchStr pattern textLower)

/-- Workflow.get_context_for_llm: deterministic rendering of name,
description and example phrases. -/
def Workflow.getContextForLLM (w : Workflow) : String :=
  let examplesText := String.intercalate "\n" (w.trigger.examples.map (fun ex => "  - " ++ ex))
  "\nWorkflow: " ++ w.name ++ "\nDescription: " ++ w.description ++
    "\nExample commands:\n" ++ examplesText ++ "\n"

/-- WorkflowManager: an insertion-ordered registry name to workflow. -/
structure WorkflowManager where
  workflows : List (String × Workflow) := []

/-- A manager with an empty registry. -/
def emptyManager : WorkflowManager := ⟨[]⟩

/-- WorkflowManager.register: dict assignment keyed by the workflow name. -/
def WorkflowManager.register (m : WorkflowManager) (w : Workflow) : WorkflowManager :=
  ⟨dictSet m.workflows w.name w⟩

/-- WorkflowManager.unregister: delete the entry when present. -/
def WorkflowManager.unregister (m : WorkflowManager) (name : String) : WorkflowManager :=
  ⟨m.workflows.filter (fun p => !(p.1 == name))⟩

/-- WorkflowManager.get_workflow. -/
def WorkflowManager.getWorkflow (m : WorkflowManager) (name : String) : Option Workflow :=
  dictGet m.workflows name

/-- The registered workflows in insertion order: the dict values view. -/
def WorkflowManager.values (m : WorkflowManager) : List Workflow :=
  m.workflows.map Prod.snd

/-- WorkflowManager.find_matching_workflow: scan the registry in insertion
order, overwriting the current best with every workflow that matches, so
the last matching workflow wins. -/
def WorkflowManager.findMatchingWorkflow (m : WorkflowManager) (text : String) : Option Workflow :=
  m.values.foldl (fun matched w => if w.matches text then some w else matched) Option.none

/-- WorkflowManager.get_all_context_for_llm: a fixed placeholder on an
empty registry, otherwise the newline-join of every context. -/
def WorkflowManager.getAllContextForLLM (m : WorkflowManager) : String :=
  if m.workflows.isEmpty then "No special capabilities are currently configured."
  else String.intercalate "\n" (m.values.map Workflow.getContextForLLM)

/-- WorkflowManager.list_workflows. -/
def WorkflowManager.listWorkflows (m : WorkflowManager) : List String :=
  m.workflows.map Prod.fst

/-! ### Example workflows (src/workflows/base.py)

The trigger pattern ASTs below transcribe the Python pattern literals; the
original literal is noted above each definition. -/

/-- Doorbell pattern: who dot-star (at|the) door. -/
def doorbellPat1 : Regex :=
  rcat [rstr "who", rdotStar, ralt [rstr "at", rstr "the"], rstr " door"]

/-- Doorbell pattern: (lock|unlock) dot-star (door|entrance). -/
def doorbellPat2 : Regex :=
  rcat [ralt [rstr "lock", rstr "unlock"], rdotStar, ralt [rstr "door", rstr "entrance"]]

/-- Doorbell pattern: check dot-star (door|entrance|visitor). -/
def doorbellPat3 : Regex :=
  rcat [rstr "check", rdotStar, ralt [rstr "door", rstr "entrance", rstr "visitor"]]

/-- Doorbell pattern: let space dot-star space in. -/
def doorbellPat4 : Regex := rcat [rstr "let ", rdotStar, rstr " in"]

/-- Doorbell pattern: open space dot-star space door. -/
def doorbellPat5 : Regex := rcat [rstr "open ", rdotStar, rstr " door"]

/-- DoorbellWorkflow with its two optional controllers (present or not);
the source controllers are only ever tested against None. -/
def doorbellWorkflow (doorbell lockController : Option Unit) : Workflow :=
  { name := "doorbell"
    description := "Check doorbell camera, see who" ++ sq ++ "s at the door, lock/unlock doors"
    trigger :=
      { keywords := ["door", "doorbell", "lock", "unlock", "visitor", "entrance"]
        patterns := [doorbellPat1, doorbellPat2, doorbellPat3, doorbellPat4, doorbellPat5]
        examples :=
          ["Who" ++ sq ++ "s at the door?", "Lock the front door", "Unlock the back door",
           "Check the doorbell camera", "Let them in"] }
    execute := fun _intent entities =>
      let action := dictGetD entities "action" (PyVal.s "check")
      let door := dictGetD entities "door" (PyVal.s "front")
      if lockController = Option.none ∧ doorbell = Option.none then
        Except.ok
          { status := .failure
            message := "The door systems are not yet configured, sir. I suggest we remedy that."
            error := some "No door controller configured" }
      else
        let message :=
          if action == PyVal.s "check" then "I" ++ sq ++ "m checking the door camera now, sir."
          else if action == PyVal.s "lock" then "The " ++ pyStr door ++ " door is now secured, sir."
          else if action == PyVal.s "unlock" then
            "I" ++ sq ++ "ve unlocked the " ++ pyStr door ++
              " door, sir. Do try not to let in anyone unsavory."
          else "Door action completed, sir."
        Except.ok
          { status := .success
            message := message
            data := some [("door", door), ("action", action)] } }

/-- Thermostat pattern: set dot-star (temp|temperature|thermostat). -/
def thermostatPat1 : Regex :=
  rcat [rstr "set", rdotStar, ralt [rstr "temp", rstr "temperature", rstr "thermostat"]]

/-- Thermostat pattern: (warm|heat|cool) dot-star up. -/
def thermostatPat2 : Regex :=
  rcat [ralt [rstr "warm", rstr "heat", rstr "cool"], rdotStar, rstr "up"]

/-- Thermostat pattern: turn space (on|off) dot-star (heat|AC|cooling|heating).
Note the uppercase literal AC kept verbatim from the source. -/
def thermostatPat3 : Regex :=
  rcat [rstr "turn ", ralt [rstr "on", rstr "off"], rdotStar,
        ralt [rstr "heat", rstr "AC", rstr "cooling", rstr "heating"]]

/-- Thermostat pattern: (too|it apostrophe s) dot-star (hot|cold|warm). -/
def thermostatPat4 : Regex :=
  rcat [ralt [rstr "too", rstr ("it" ++ sq ++ "s")], rdotStar,
        ralt [rstr "hot", rstr "cold", rstr "warm"]]

/-- Thermostat pattern: make space it space (warm|cool|cold). -/
def thermostatPat5 : Regex :=
  rcat [rstr "make it ", ralt [rstr "warm", rstr "cool", rstr "cold"]]

/-- ThermostatWorkflow with its optional controller. -/
def thermostatWorkflow (controller : Option Unit) : Workflow :=
  { name := "thermostat"
    description := "Control thermostat - set temperature, change modes"
    trigger :=
      { keywords := ["temperature", "thermostat", "heat", "cool", "warm", "cold", "AC", "heating"]
        patterns := [thermostatPat1, thermostatPat2, thermostatPat3, thermostatPat4, thermostatPat5]
        examples :=
          ["Set the temperature to 72 degrees", "It" ++ sq ++ "s too cold in here",
           "Turn on the AC", "Warm it up a bit"] }
    execute := fun _intent entities =>
      let action := dictGetD entities "action" (PyVal.s "adjust")
      let targetTemp := dictGetD entities "temperature" PyVal.none
      let mode := dictGetD entities "mode" PyVal.none
      if controller = Option.none then
        Except.ok
          { status := .failure
            message := "The climate control system awaits configuration, sir."
            error := some "No thermostat controller configured" }
      else
        let message :=
          if pyTruthy targetTemp then
            "I" ++ sq ++ "ve set the temperature to " ++ pyStr targetTemp ++
              " degrees, sir. Comfort should arrive shortly."
          else if pyTruthy mode then
            "The climate system is now in " ++ pyStr mode ++ " mode, sir."
          else "I" ++ sq ++ "ve adjusted the temperature to something more agreeable, sir."
        Except.ok
          { status := .success
            message := message
            data := some [("temperature", targetTemp), ("mode", mode)] } }

/-! ### Entity extraction (src/core/assistant.py _extract_entities) -/

/-- The fixed room enumeration. -/
def rooms : List String :=
  ["living room", "bedroom", "kitchen", "bathroom", "office", "garage", "basement", "attic"]

/-- The fixed door enumeration. -/
def doors : List String := ["front", "back", "side", "garage"]

/-- The mood table in its declared (dict insertion) order. -/
def moodKeywords : List (String × List String) :=
  [("romantic", ["romantic", "romance", "date night", "intimate", "candlelight"]),
   ("relax", ["relax", "relaxing", "chill", "calm", "unwind", "wind down", "peaceful"]),
   ("energize", ["energize", "energetic", "energy", "pump up", "motivated", "productive"]),
   ("party", ["party", "dance", "celebrate", "celebration", "fiesta"]),
   ("bedtime", ["bed", "sleep", "bedtime", "good night", "goodnight", "going to bed", "sleepy", "night night"]),
   ("focus", ["focus", "concentrate", "study", "reading", "work mode"]),
   ("movie", ["movie", "cinema", "film", "movie night", "watching"]),
   ("morning", ["morning", "wake up", "sunrise", "good morning"])]

/-- The action if/elif chain over the lowercased text. -/
def actionStep (textLower : String) (entities : Entities) : Entities :=
  if ["turn on", "switch on", "enable"].any (fun word => strIn word textLower) then
    dictSet entities "action" (PyVal.s "on")
  else if ["turn off", "switch off", "disable"].any (fun word => strIn word textLower) then
    dictSet entities "action" (PyVal.s "off")
  else if strIn "dim" textLower then dictSet entities "action" (PyVal.s "dim")
  else if strIn "lock" textLower && !(strIn "unlock" textLower) then
    dictSet entities "action" (PyVal.s "lock")
  else if strIn "unlock" textLower then dictSet entities "action" (PyVal.s "unlock")
  else if strIn "check" textLower || strIn "who" textLower then
    dictSet entities "action" (PyVal.s "check")
  else entities

/-- The first room found as a substring, if any. -/
def roomStep (textLower : String) (entities : Entities) : Entities :=
  match rooms.find? (fun room => strIn room textLower) with
  | some room => dictSet entities "room" (PyVal.s room)
  | Option.none => entities

/-- The first door found as a substring, if any. -/
def doorStep (textLower : String) (entities : Entities) : Entities :=
  match doors.find? (fun door => strIn door textLower) with
  | some door => dictSet entities "door" (PyVal.s door)
  | Option.none => entities

/-- The first mood whose keyword list has a substring hit sets mood and
overwrites action with mood. -/
def moodStep (textLower : String) (entities : Entities) : Entities :=
  match moodKeywords.find? (fun p => p.2.any (fun kw => strIn kw textLower)) with
  | some p => dictSet (dictSet entities "mood" (PyVal.s p.1)) "action" (PyVal.s "mood")
  | Option.none => entities

/-- The first maximal digit run of the text, as found by
re.findall(backslash-d-plus, text) taking element 0. -/
def firstDigitRun (s : List Char) : Option (List Char) :=
  match s.dropWhile (fun c => !c.isDigit) with
  | [] => Option.none
  | c :: rest => some ((c :: rest).takeWhile Char.isDigit)

/-- Python int() of a digit run. -/
def digitsVal (ds : List Char) : Nat :=
  ds.foldl (fun acc c => acc * 10 + (c.toNat - 48)) 0

/-- The integer value of the first digit run of the text, if any.  The
source scans the original (not lowercased) text. -/
def firstNumber (text : String) : Option Nat :=
  (firstDigitRun text.data).map digitsVal

/-- Store the first number as brightness when at most 100, else as
temperature. -/
def numberStep (text : String) (entities : Entities) : Entities :=
  match firstNumber text with
  | some num =>
      if num ≤ 100 then dictSet entities "brightness" (PyVal.n num)
      else dictSet entities "temperature" (PyVal.n num)
  | Option.none => entities

/-- VoiceAssistant._extract_entities: the full deterministic pass in source
order (action, room, door, mood, numbers) over an initially empty dict. -/
def extractEntities (text : String) : Entities :=
  numberStep text (moodStep (pyLower text) (doorStep (pyLower text) (roomStep (pyLower text) (actionStep (pyLower text) ([] : Entities)))))

/-! ### Orchestrator (src/core/assistant.py) -/

/-- The fallback prompt synthesized for a FAILURE result, exactly the
f-string of process_input. -/
def failureContext (text : String) (workflowName : String) (result : WorkflowResult) : String :=
  "The user asked: " ++ sq ++ text ++ sq ++ ". The " ++ workflowName ++
    " system responded with an error: " ++ pyStrOr result.error result.message

/-- VoiceAssistant.process_input.  The language-model collaborator is the
function llm (its generate_response); a thrown exception is an error of the
Except monad and propagates out of process_input. -/
def processInput (llm : String → Except PyExn String) (m : WorkflowManager)
    (text : String) : Except PyExn String :=
  match m.findMatchingWorkflow text with
  | some w => do
      let entities := extractEntities text
      let result ← w.execute text entities
      match result.status with
      | .success => Except.ok result.message
      | .failure => llm (failureContext text w.name result)
      | _ => Except.ok result.message
  | Option.none =>
      let _workflowContext := m.getAllContextForLLM
      llm text

/-- The fixed apology spoken by handle_activation when processing raises. -/
def apologyMessage : String :=
  "I apologize, sir, but I encountered an error processing that request."

/-- The response selection of handle_activation: the try/except around
process_input converts any exception into the fixed apology. -/
def handleActivationResponse (llm : String → Except PyExn String) (m : WorkflowManager)
    (text : String) : String :=
  match processInput llm m text with
  | Except.ok response => response
  | Except.error _ => apologyMessage

/-- VoiceAssistant.run_single_interaction: asyncio.run(process_input(text))
with no exception handling of its own. -/
def runSingleInteraction (llm : String → Except PyExn String) (m : WorkflowManager)
    (text : String) : Except PyExn String :=
  processInput llm m text

/-! ### Language-model conversation history (src/llm/providers.py,
src/config/settings.py) -/

/-- One entry of the conversation history. -/
structure ChatMessage where
  role : String
  content : String
deriving DecidableEq

/-- AnthropicLLM.generate_response as a history transformer: append the
user message, call the API on the whole history, append the assistant
reply.  No truncation occurs anywhere in the provider. -/
def anthropicGenerateResponse (api : List ChatMessage → String)
    (history : List ChatMessage) (userInput : String) : String × List ChatMessage :=
  let history1 := history ++ [⟨"user", userInput⟩]
  let assistantMessage := api history1
  (assistantMessage, history1 ++ [⟨"assistant", assistantMessage⟩])

/-- The generation settings of LLMConfig that concern the history bound. -/
structure LLMConfig where
  maxHistory : Nat := 10

/-- The default LLMConfig: max_history = 10. -/
def defaultLLMConfig : LLMConfig := {}

/-- A sequence of generate_response calls threaded through the history. -/
def runAnthropicCalls (api : List ChatMessage → String) (inputs : List String)
    (history : List ChatMessage) : List ChatMessage :=
  inputs.foldl (fun h input => (anthropicGenerateResponse api h input).2) history

/-! ### Spec-side definition for the matching claim (refinement check)

Modelled from the spec words for claim comparison only: keywords as
case-insensitive substrings, patterns searched case-insensitively against
the utterance. -/

/-- The matching predicate as the spec describes it: identical keyword
handling, but the pattern search is case-insensitive. -/
def specMatches (w : Workflow) (text : String) : Bool :=
  w.trigger.keywords.any (fun keyword => strIn (pyLower keyword) (pyLower text)) ||
    w.trigger.patterns.any (fun pattern => reSearchStr (Regex.ci pattern) text)

/-! ### Concrete fixtures used by witnesses and counterexamples -/

/-- A language model stub that echoes its prompt with a marker. -/
def llmEcho : String → Except PyExn String := fun s => Except.ok ("[model] " ++ s)

/-- A language model stub whose call raises. -/
def llmBoom : String → Except PyExn String := fun _ => Except.error "boom"

/-- A registry holding only the unconfigured thermostat workflow. -/
def thermoManager : WorkflowManager := emptyManager.register (thermostatWorkflow Option.none)

/-- A registry holding a doorbell workflow with a lock controller. -/
def doorManager : WorkflowManager :=
  emptyManager.register (doorbellWorkflow Option.none (some ()))

/-- A minimal custom workflow whose execute reports the PARTIAL status, to
exercise the nonfailure branch of process_input. -/
def partlySkill : Workflow :=
  { name := "partlyskill"
    description := "test skill reporting a partly-done result"
    trigger := { keywords := ["frob"], patterns := [], examples := [] }
    execute := fun _ _ => Except.ok { status := .partly, message := "Some actions succeeded, sir." } }

/-- A minimal workflow whose only trigger is the thermostat pattern with
the uppercase AC literal and no keywords, isolating pattern matching. -/
def acOnlySkill : Workflow :=
  { name := "aconly"
    description := "test skill triggered only by the AC pattern"
    trigger := { keywords := [], patterns := [thermostatPat3], examples := [] }
    execute := fun _ _ => Except.ok { status := .success, message := "ok" } }

/-! ### Dictionary lemmas -/

theorem dictGet_dictSet_self {α : Type} (d : List (String × α)) (k : String) (v : α) :
    dictGet (dictSet d k v) k = some v := by
  induction d with
  | nil => simp [dictSet, dictGet]
  | cons p rest ih =>
      obtain ⟨k2, w⟩ := p
      cases h : (k2 == k) <;> simp [dictSet, dictGet, h, ih]

theorem dictGet_dictSet_ne {α : Type} (d : List (String × α)) (k1 k2 : String) (v : α)
    (h : ¬ k1 = k2) : dictGet (dictSet d k1 v) k2 = dictGet d k2 := by
  induction d with
  | nil => simp [dictSet, dictGet, h]
  | cons p rest ih =>
      obtain ⟨ka, w⟩ := p
      cases hk : (ka == k1)
      · cases hk2 : (ka == k2) <;> simp [dictSet, dictGet, hk, hk2, ih]
      · have : ka = k1 := by simpa using hk
        subst this
        simp [dictSet, dictGet, hk, h]

/-! ### The last-match-wins fold -/

theorem foldl_overwrite {α : Type} (p : α → Bool) (l : List α) (acc : Option α) :
    l.foldl (fun m x => if p x then some x else m) acc = (l.reverse.find? p).or acc := by
  induction l generalizing acc with
  | nil => simp
  | cons x xs ih =>
      simp only [List.foldl_cons, List.reverse_cons]
      rw [ih, List.find?_append]
      cases hfind : xs.reverse.find? p <;> cases hpx : p x <;>
        simp [List.find?, hpx, Option.or]

theorem findMatching_eq_find? (m : WorkflowManager) (text : String) :
    m.findMatchingWorkflow text = m.values.reverse.find? (fun w => w.matches text) := by
  unfold WorkflowManager.findMatchingWorkflow
  rw [foldl_overwrite]
  cases h : m.values.reverse.find? (fun w => w.matches text) <;> simp [Option.or]

/-- C1: find_matching_workflow scans all registered workflows in insertion
order and returns the last one whose matches() is true (none when no
workflow matches); in particular registering A then B with both matching
yields B. -/
theorem find_matching_workflow_last_wins :
    (∀ (m : WorkflowManager) (text : String),
        m.findMatchingWorkflow text = m.values.reverse.find? (fun w => w.matches text)) ∧
    (∀ (m : WorkflowManager) (text : String),
        (∀ w ∈ m.values, w.matches text = false) → m.findMatchingWorkflow text = Option.none) ∧
    (∀ (A B : Workflow) (text : String), A.matches text = true → B.matches text = true →
        ((emptyManager.register A).register B).findMatchingWorkflow text = some B) := by
  refine ⟨findMatching_eq_find?, ?_, ?_⟩
  · intro m text h
    rw [findMatching_eq_find?]
    refine List.find?_eq_none.mpr ?_
    intro w hw
    simp [h w (List.mem_reverse.mp hw)]
  · intro A B text hA hB
    simp only [WorkflowManager.register, emptyManager, dictSet]
    cases h : (A.name == B.name) <;>
      simp [WorkflowManager.findMatchingWorkflow, WorkflowManager.values, dictSet, h, hA, hB]

/-- Witness for C1: the registry holding doorbell then thermostat, on an
utterance both match, yields the thermostat workflow. -/
theorem find_matching_workflow_last_wins_witness :
    ((emptyManager.register (doorbellWorkflow Option.none Option.none)).register
        (thermostatWorkflow Option.none)).findMatchingWorkflow "check the door temperature" =
      some (thermostatWorkflow Option.none) :=
  find_matching_workflow_last_wins.2.2 (doorbellWorkflow Option.none Option.none)
    (thermostatWorkflow Option.none) "check the door temperature" (by decide) (by decide)

/-- C3 (amended): handle_activation converts any exception raised while
processing an utterance into the fixed apology message, while
run_single_interaction returns the outcome of process_input unchanged, so
an exception there propagates to its caller. -/
theorem handle_activation_catch_all :
    (∀ (llm : String → Except PyExn String) (m : WorkflowManager) (text : String) (e : PyExn),
        processInput llm m text = Except.error e →
        handleActivationResponse llm m text = apologyMessage) ∧
    (∀ (llm : String → Except PyExn String) (m : WorkflowManager) (text : String),
        runSingleInteraction llm m text = processInput llm m text) := by
  constructor
  · intro llm m text e h
    unfold handleActivationResponse
    rw [h]
  · intro llm m text
    rfl

/-- Witness for C3: a raising language-model call on an unmatched utterance
is converted by handle_activation into the apology. -/
theorem handle_activation_catch_all_witness :
    handleActivationResponse llmBoom emptyManager "hello there" = apologyMessage :=
  handle_activation_catch_all.1 llmBoom emptyManager "hello there" "boom" rfl

/-- Counterexample for C3 as stated: run_single_interaction is a
text-in/text-out entry point of the orchestrator, yet an exception from the
language-model call propagates out of it instead of becoming the apology. -/
theorem run_single_interaction_propagates :
    runSingleInteraction llmBoom emptyManager "hello there" = Except.error "boom" ∧
    (Except.error "boom" : Except PyExn String) ≠ Except.ok apologyMessage := by
  exact ⟨rfl, by simp⟩

/-- C4: AnthropicLLM.generate_response appends two messages per call and
never truncates the conversation history, so six calls from an empty
history reach 12 entries, exceeding the configured default max_history of
10 that the settings comment promises to enforce. -/
theorem anthropic_history_never_truncated :
    (∀ (api : List ChatMessage → String) (history : List ChatMessage) (input : String),
        ((anthropicGenerateResponse api history input).2).length = history.length + 2) ∧
    (runAnthropicCalls (fun _ => "Indeed, sir.") ["a", "b", "c", "d", "e", "f"] []).length = 12 ∧
    defaultLLMConfig.maxHistory <
      (runAnthropicCalls (fun _ => "Indeed, sir.") ["a", "b", "c", "d", "e", "f"] []).length := by
  refine ⟨?_, rfl, by decide⟩
  intro api history input
  simp [anthropicGenerateResponse]

/-- C9: get_all_context_for_llm is a pure rendering of the registry:
repeated calls without mutation agree, and the empty registry yields the
fixed placeholder, not the empty string. -/
theorem get_all_context_deterministic :
    (∀ m : WorkflowManager, m.getAllContextForLLM = m.getAllContextForLLM) ∧
    emptyManager.getAllContextForLLM = "No special capabilities are currently configured." ∧
    emptyManager.getAllContextForLLM ≠ "" := by
  exact ⟨fun m => rfl, rfl, by decide⟩

/-! ### Substring lemmas -/

theorem listStartsWith_iff (a b : List Char) : listStartsWith a b = true ↔ a <+: b := by
  induction a generalizing b with
  | nil => simp [listStartsWith]
  | cons c cs ih =>
      cases b with
      | nil => simp [listStartsWith]
      | cons d ds => simp [listStartsWith, ih, List.cons_prefix_cons]

theorem listIn_iff (needle hay : List Char) : listIn needle hay = true ↔ needle <:+: hay := by
  induction hay with
  | nil => simp [listIn, List.isEmpty_iff]
  | cons c cs ih =>
      rw [List.infix_cons_iff]
      simp [listIn, listStartsWith_iff, ih]

theorem strIn_iff (needle hay : String) : strIn needle hay = true ↔ needle.data <:+: hay.data :=
  listIn_iff needle.data hay.data

theorem strIn_trans (a b c : String) (h1 : strIn a b = true) (h2 : strIn b c = true) :
    strIn a c = true := by
  rw [strIn_iff] at h1 h2 ⊢
  exact h1.trans h2

/-! ### Correctness of the derivative matcher -/

theorem emp_inv {l : List Char} (h : RMatch .emp l) : False := by cases h

theorem eps_inv {l : List Char} (h : RMatch .eps l) : l = [] := by cases h; rfl

theorem pred_inv {p : Char → Bool} {l : List Char} (h : RMatch (.pred p) l) :
    ∃ c, l = [c] ∧ p c = true := by
  cases h with
  | pred hp => exact ⟨_, rfl, hp⟩

theorem cat_inv {r1 r2 : Regex} {l : List Char} (h : RMatch (.cat r1 r2) l) :
    ∃ l1 l2, l = l1 ++ l2 ∧ RMatch r1 l1 ∧ RMatch r2 l2 := by
  cases h with
  | catM h1 h2 => exact ⟨_, _, rfl, h1, h2⟩

theorem alt_inv {r1 r2 : Regex} {l : List Char} (h : RMatch (.alt r1 r2) l) :
    RMatch r1 l ∨ RMatch r2 l := by
  cases h with
  | altL h1 => exact Or.inl h1
  | altR h1 => exact Or.inr h1

theorem nullable_iff (r : Regex) : nullable r = true ↔ RMatch r [] := by
  induction r with
  | emp => simp [nullable]; intro h; exact emp_inv h
  | eps => simp [nullable]; exact RMatch.eps
  | pred p => simp [nullable]; intro h; obtain ⟨c, hc, _⟩ := pred_inv h; cases hc
  | cat r1 r2 ih1 ih2 =>
      simp only [nullable, Bool.and_eq_true, ih1, ih2]
      constructor
      · rintro ⟨h1, h2⟩; exact RMatch.catM h1 h2
      · intro h
        obtain ⟨l1, l2, hl, h1, h2⟩ := cat_inv h
        obtain ⟨rfl, rfl⟩ := List.append_eq_nil.mp hl.symm
        exact ⟨h1, h2⟩
  | alt r1 r2 ih1 ih2 =>
      simp only [nullable, Bool.or_eq_true, ih1, ih2]
      constructor
      · rintro (h | h)
        · exact RMatch.altL h
        · exact RMatch.altR h
      · intro h; exact alt_inv h
  | star r ih => simp [nullable]; exact RMatch.starNil

theorem star_split {r : Regex} {c : Char} {s : List Char} (h : RMatch (.star r) (c :: s)) :
    ∃ s1 s2, s = s1 ++ s2 ∧ RMatch r (c :: s1) ∧ RMatch (.star r) s2 := by
  suffices aux : ∀ (q : Regex) (l : List Char), RMatch q l → q = Regex.star r → l = c :: s →
      ∃ s1 s2, s = s1 ++ s2 ∧ RMatch r (c :: s1) ∧ RMatch (.star r) s2 by
    exact aux _ _ h rfl rfl
  intro q l hm
  induction hm with
  | eps => intro hq _; exact Regex.noConfusion hq
  | pred _ => intro hq _; exact Regex.noConfusion hq
  | catM _ _ _ _ => intro hq _; exact Regex.noConfusion hq
  | altL _ _ => intro hq _; exact Regex.noConfusion hq
  | altR _ _ => intro hq _; exact Regex.noConfusion hq
  | starNil => intro _ hl; exact List.noConfusion hl
  | starCons h1 h2 ih1 ih2 =>
      intro hq hl
      injection hq with hr
      subst hr
      rename_i l1 l2
      cases l1 with
      | nil =>
          exact ih2 rfl (by simpa using hl)
      | cons a t1 =>
          injection hl with ha hs
          subst ha
          exact ⟨t1, l2, hs.symm, h1, h2⟩

theorem deriv_iff (r : Regex) (c : Char) (s : List Char) :
    RMatch (deriv r c) s ↔ RMatch r (c :: s) := by
  induction r generalizing s with
  | emp =>
      constructor
      · intro h; exact absurd h (fun h => emp_inv h)
      · intro h; exact absurd h (fun h => emp_inv h)
  | eps =>
      constructor
      · intro h; exact absurd h (fun h => emp_inv h)
      · intro h; cases eps_inv h
  | pred p =>
      cases hpc : p c with
      | false =>
          simp only [deriv, hpc, Bool.false_eq_true, if_false]
          constructor
          · intro h; exact absurd h (fun h => emp_inv h)
          · intro h
            obtain ⟨d, hd, hp⟩ := pred_inv h
            injection hd with hd1 _
            subst hd1
            rw [hpc] at hp
            cases hp
      | true =>
          simp only [deriv, hpc, if_true]
          constructor
          · intro h; rw [eps_inv h]; exact RMatch.pred hpc
          · intro h
            obtain ⟨d, hd, _⟩ := pred_inv h
            injection hd with _ hd2
            rw [hd2]
            exact RMatch.eps
  | cat r1 r2 ih1 ih2 =>
      cases hn : nullable r1 with
      | false =>
          simp only [deriv, hn, Bool.false_eq_true, if_false]
          constructor
          · intro h
            obtain ⟨l1, l2, rfl, h1, h2⟩ := cat_inv h
            exact RMatch.catM ((ih1 _).mp h1) h2
          · intro h
            obtain ⟨l1, l2, hl, h1, h2⟩ := cat_inv h
            cases l1 with
            | nil =>
                rw [(nullable_iff r1).mpr h1] at hn
                cases hn
            | cons a t1 =>
                injection hl with ha ht
                subst ha
                rw [ht]
                exact RMatch.catM ((ih1 _).mpr h1) h2
      | true =>
          simp only [deriv, hn, if_true]
          constructor
          · intro h
            rcases alt_inv h with h | h
            · obtain ⟨l1, l2, rfl, h1, h2⟩ := cat_inv h
              exact RMatch.catM ((ih1 _).mp h1) h2
            · have h2 := (ih2 _).mp h
              have h1 : RMatch r1 [] := (nullable_iff r1).mp hn
              exact RMatch.catM h1 h2
          · intro h
            obtain ⟨l1, l2, hl, h1, h2⟩ := cat_inv h
            cases l1 with
            | nil =>
                refine RMatch.altR ((ih2 _).mpr ?_)
                simpa using hl ▸ h2
            | cons a t1 =>
                injection hl with ha ht
                subst ha
                rw [ht]
                exact RMatch.altL (RMatch.catM ((ih1 _).mpr h1) h2)
  | alt r1 r2 ih1 ih2 =>
      constructor
      · intro h
        rcases alt_inv h with h | h
        · exact RMatch.altL ((ih1 _).mp h)
        · exact RMatch.altR ((ih2 _).mp h)
      · intro h
        rcases alt_inv h with h | h
        · exact RMatch.altL ((ih1 _).mpr h)
        · exact RMatch.altR ((ih2 _).mpr h)
  | star r ih =>
      constructor
      · intro h
        obtain ⟨l1, l2, rfl, h1, h2⟩ := cat_inv h
        exact RMatch.starCons ((ih _).mp h1) h2
      · intro h
        obtain ⟨s1, s2, rfl, h1, h2⟩ := star_split h
        exact RMatch.catM ((ih _).mpr h1) h2

theorem matchesHere_iff (r : Regex) (s : List Char) :
    matchesHere r s = true ↔ ∃ s1 s2, s = s1 ++ s2 ∧ RMatch r s1 := by
  induction s generalizing r with
  | nil =>
      simp only [matchesHere, nullable_iff]
      constructor
      · intro h; exact ⟨[], [], rfl, h⟩
      · rintro ⟨s1, s2, hs, h⟩
        obtain ⟨rfl, rfl⟩ := List.append_eq_nil.mp hs.symm
        exact h
  | cons c cs ih =>
      simp only [matchesHere, Bool.or_eq_true, nullable_iff, ih]
      constructor
      · rintro (h | ⟨s1, s2, rfl, h⟩)
        · exact ⟨[], c :: cs, rfl, h⟩
        · exact ⟨c :: s1, s2, rfl, (deriv_iff r c s1).mp h⟩
      · rintro ⟨s1, s2, hs, h⟩
        cases s1 with
        | nil => exact Or.inl h
        | cons a t =>
            injection hs with ha ht
            subst ha
            exact Or.inr ⟨t, s2, ht, (deriv_iff r c t).mpr h⟩

theorem reSearch_iff (r : Regex) (s : List Char) :
    reSearch r s = true ↔ ∃ pre mid suf, s = pre ++ (mid ++ suf) ∧ RMatch r mid := by
  induction s with
  | nil =>
      simp only [reSearch, matchesHere, nullable_iff]
      constructor
      · intro h; exact ⟨[], [], [], rfl, h⟩
      · rintro ⟨pre, mid, suf, hs, h⟩
        obtain ⟨rfl, h2⟩ := List.append_eq_nil.mp hs.symm
        obtain ⟨rfl, rfl⟩ := List.append_eq_nil.mp h2
        exact h
  | cons c cs ih =>
      simp only [reSearch, Bool.or_eq_true, matchesHere_iff, ih]
      constructor
      · rintro (⟨s1, s2, hs, h⟩ | ⟨pre, mid, suf, hs, h⟩)
        · exact ⟨[], s1, s2, by simpa using hs, h⟩
        · exact ⟨c :: pre, mid, suf, by simp [hs], h⟩
      · rintro ⟨pre, mid, suf, hs, h⟩
        cases pre with
        | nil => exact Or.inl ⟨mid, suf, by simpa using hs, h⟩
        | cons a t =>
            injection hs with ha ht
            subst ha
            exact Or.inr ⟨t, mid, suf, ht, h⟩

/-- C5 (amended): matches is a pure OR of case-insensitive keyword
substring tests and case-sensitive regex searches against the lowercased
utterance, and utterances naming the AC still trigger the thermostat
workflow through its AC keyword. -/
theorem matches_iff_keyword_or_pattern :
    (∀ (w : Workflow) (u : String),
        w.matches u = true ↔
          (∃ kw ∈ w.trigger.keywords, (pyLower kw).data <:+: (pyLower u).data) ∨
          (∃ p ∈ w.trigger.patterns, ∃ pre mid suf,
              (pyLower u).data = pre ++ (mid ++ suf) ∧ RMatch p mid)) ∧
    (thermostatWorkflow Option.none).matches "Turn on the AC" = true := by
  constructor
  · intro w u
    unfold Workflow.matches
    simp only [Bool.or_eq_true, List.any_eq_true, strIn_iff, reSearchStr, reSearch_iff]
  · decide

/-- Counterexample for C5 as stated: the thermostat pattern containing the
uppercase literal AC does not match the lowercased utterance text under the
case-sensitive search the code performs (its case-insensitive reading
would), and a workflow triggered only by that pattern is matched by the
spec reading but not by the code. -/
theorem pattern_case_sensitivity_counterexample :
    reSearchStr thermostatPat3 (pyLower "Turn on the AC") = false ∧
    reSearchStr (Regex.ci thermostatPat3) "Turn on the AC" = true ∧
    specMatches acOnlySkill "Turn on the AC" = true ∧
    acOnlySkill.matches "Turn on the AC" = false := by
  refine ⟨by decide, by decide, by decide, by decide⟩

/-! ### Entity-extraction step lemmas -/

theorem dictGet_actionStep (tl : String) (e : Entities) (k : String) (hk : ¬ k = "action") :
    dictGet (actionStep tl e) k = dictGet e k := by
  have hne : ¬ "action" = k := fun h => hk h.symm
  unfold actionStep
  split_ifs <;> first | rfl | rw [dictGet_dictSet_ne _ _ _ _ hne]

theorem dictGet_roomStep (tl : String) (e : Entities) (k : String) (hk : ¬ k = "room") :
    dictGet (roomStep tl e) k = dictGet e k := by
  have hne : ¬ "room" = k := fun h => hk h.symm
  unfold roomStep
  cases h : rooms.find? (fun room => strIn room tl) with
  | none => rfl
  | some room => rw [dictGet_dictSet_ne _ _ _ _ hne]

theorem dictGet_doorStep (tl : String) (e : Entities) (k : String) (hk : ¬ k = "door") :
    dictGet (doorStep tl e) k = dictGet e k := by
  have hne : ¬ "door" = k := fun h => hk h.symm
  unfold doorStep
  cases h : doors.find? (fun door => strIn door tl) with
  | none => rfl
  | some door => rw [dictGet_dictSet_ne _ _ _ _ hne]

theorem dictGet_moodStep (tl : String) (e : Entities) (k : String)
    (hk1 : ¬ k = "mood") (hk2 : ¬ k = "action") :
    dictGet (moodStep tl e) k = dictGet e k := by
  have hne1 : ¬ "mood" = k := fun h => hk1 h.symm
  have hne2 : ¬ "action" = k := fun h => hk2 h.symm
  unfold moodStep
  cases h : moodKeywords.find? (fun p => p.2.any (fun kw => strIn kw tl)) with
  | none => rfl
  | some p => rw [dictGet_dictSet_ne _ _ _ _ hne2, dictGet_dictSet_ne _ _ _ _ hne1]

theorem dictGet_numberStep (text : String) (e : Entities) (k : String)
    (hk1 : ¬ k = "brightness") (hk2 : ¬ k = "temperature") :
    dictGet (numberStep text e) k = dictGet e k := by
  have hne1 : ¬ "brightness" = k := fun h => hk1 h.symm
  have hne2 : ¬ "temperature" = k := fun h => hk2 h.symm
  unfold numberStep
  cases h : firstNumber text with
  | none => rfl
  | some num =>
      dsimp only
      split_ifs <;> first | rw [dictGet_dictSet_ne _ _ _ _ hne1] | rw [dictGet_dictSet_ne _ _ _ _ hne2]

theorem mood_override_of_find? (text : String) (p : String × List String)
    (h : moodKeywords.find? (fun q => q.2.any (fun kw => strIn kw (pyLower text))) = some p) :
    dictGet (extractEntities text) "mood" = some (PyVal.s p.1) ∧
    dictGet (extractEntities text) "action" = some (PyVal.s "mood") := by
  unfold extractEntities
  rw [dictGet_numberStep _ _ _ (by decide) (by decide),
      dictGet_numberStep _ _ _ (by decide) (by decide)]
  unfold moodStep
  rw [h]
  constructor
  · rw [dictGet_dictSet_ne _ _ _ _ (by decide), dictGet_dictSet_self]
  · rw [dictGet_dictSet_self]

theorem pre_number_no_number_keys (text : String) (k : String)
    (hk1 : ¬ k = "action") (hk2 : ¬ k = "room") (hk3 : ¬ k = "door") (hk4 : ¬ k = "mood") :
    dictGet (moodStep (pyLower text) (doorStep (pyLower text) (roomStep (pyLower text)
      (actionStep (pyLower text) ([] : Entities))))) k = Option.none := by
  rw [dictGet_moodStep _ _ _ hk4 hk1, dictGet_doorStep _ _ _ hk3,
      dictGet_roomStep _ _ _ hk2, dictGet_actionStep _ _ _ hk1]
  rfl

/-- C6: the two entity-extraction determinism examples of the spec, and the
general mood override: the first mood of the declared table order with a
keyword substring hit sets mood and forces action to mood. -/
theorem extract_entities_deterministic :
    extractEntities "turn off the kitchen lights" =
      [("action", PyVal.s "off"), ("room", PyVal.s "kitchen")] ∧
    extractEntities ("I" ++ sq ++ "m going to bed") =
      [("mood", PyVal.s "bedtime"), ("action", PyVal.s "mood")] ∧
    (∀ (text : String) (p : String × List String),
        moodKeywords.find? (fun q => q.2.any (fun kw => strIn kw (pyLower text))) = some p →
        dictGet (extractEntities text) "mood" = some (PyVal.s p.1) ∧
        dictGet (extractEntities text) "action" = some (PyVal.s "mood")) :=
  ⟨by decide, by decide, mood_override_of_find?⟩

/-- Witness for C6: on the utterance party time, the party mood is the
first hit and overrides the action. -/
theorem extract_entities_deterministic_witness :
    dictGet (extractEntities "party time") "mood" = some (PyVal.s "party") ∧
    dictGet (extractEntities "party time") "action" = some (PyVal.s "mood") :=
  extract_entities_deterministic.2.2 "party time"
    ("party", ["party", "dance", "celebrate", "celebration", "fiesta"]) (by decide)

/-- C7: the first digit run of the utterance is stored as brightness when
its value is at most 100 and as temperature otherwise, never both, and no
digits means neither key is set; with the two concrete spec examples. -/
theorem extract_number_threshold :
    extractEntities "set it to 72" = [("brightness", PyVal.n 72)] ∧
    extractEntities "set it to 150" = [("temperature", PyVal.n 150)] ∧
    (∀ text : String, firstNumber text = Option.none →
        dictGet (extractEntities text) "brightness" = Option.none ∧
        dictGet (extractEntities text) "temperature" = Option.none) ∧
    (∀ (text : String) (num : Nat), firstNumber text = some num →
        (num ≤ 100 →
            dictGet (extractEntities text) "brightness" = some (PyVal.n num) ∧
            dictGet (extractEntities text) "temperature" = Option.none) ∧
        (100 < num →
            dictGet (extractEntities text) "temperature" = some (PyVal.n num) ∧
            dictGet (extractEntities text) "brightness" = Option.none)) := by
  refine ⟨by decide, by decide, ?_, ?_⟩
  · intro text h
    unfold extractEntities numberStep
    rw [h]
    dsimp only
    exact ⟨pre_number_no_number_keys text _ (by decide) (by decide) (by decide) (by decide),
           pre_number_no_number_keys text _ (by decide) (by decide) (by decide) (by decide)⟩
  · intro text num h
    unfold extractEntities numberStep
    rw [h]
    dsimp only
    constructor
    · intro hle
      rw [if_pos hle]
      refine ⟨dictGet_dictSet_self _ _ _, ?_⟩
      rw [dictGet_dictSet_ne _ _ _ _ (by decide)]
      exact pre_number_no_number_keys text _ (by decide) (by decide) (by decide) (by decide)
    · intro hgt
      rw [if_neg (by omega)]
      refine ⟨dictGet_dictSet_self _ _ _, ?_⟩
      rw [dictGet_dictSet_ne _ _ _ _ (by decide)]
      exact pre_number_no_number_keys text _ (by decide) (by decide) (by decide) (by decide)

/-- Witness for C7: a first number of 42 is stored as brightness and the
temperature key stays unset. -/
theorem extract_number_threshold_witness :
    dictGet (extractEntities "give me 42 percent") "brightness" = some (PyVal.n 42) ∧
    dictGet (extractEntities "give me 42 percent") "temperature" = Option.none :=
  (extract_number_threshold.2.2.2 "give me 42 percent" 42 (by decide)).1 (by decide)

/-- Counterexample for C10 as stated: the utterance party in the bedroom
contains bedroom, yet the party mood is found first in table order, so the
extractor does not set mood to bedtime. -/
theorem bedroom_mood_counterexample :
    strIn "bedroom" (pyLower "party in the bedroom") = true ∧
    dictGet (extractEntities "party in the bedroom") "mood" = some (PyVal.s "party") ∧
    ¬ dictGet (extractEntities "party in the bedroom") "mood" = some (PyVal.s "bedtime") := by
  refine ⟨by decide, by decide, by decide⟩

/-- C10 (amended): an utterance containing bedroom in which no keyword of
the earlier moods (romantic, relax, energize, party) occurs gets mood
bedtime and action mood, because bed is a bedtime keyword and a substring
of bedroom; in particular turn on the bedroom lights extracts action mood,
room bedroom, mood bedtime rather than action on. -/
theorem bedroom_defaults_to_bedtime :
    extractEntities "turn on the bedroom lights" =
      [("action", PyVal.s "mood"), ("room", PyVal.s "bedroom"), ("mood", PyVal.s "bedtime")] ∧
    (∀ text : String, strIn "bedroom" (pyLower text) = true →
        (["romantic", "romance", "date night", "intimate", "candlelight"].any
            (fun kw => strIn kw (pyLower text))) = false →
        (["relax", "relaxing", "chill", "calm", "unwind", "wind down", "peaceful"].any
            (fun kw => strIn kw (pyLower text))) = false →
        (["energize", "energetic", "energy", "pump up", "motivated", "productive"].any
            (fun kw => strIn kw (pyLower text))) = false →
        (["party", "dance", "celebrate", "celebration", "fiesta"].any
            (fun kw => strIn kw (pyLower text))) = false →
        dictGet (extractEntities text) "mood" = some (PyVal.s "bedtime") ∧
        dictGet (extractEntities text) "action" = some (PyVal.s "mood")) := by
  refine ⟨by decide, ?_⟩
  intro text hbedroom h1 h2 h3 h4
  have hbed : strIn "bed" (pyLower text) = true :=
    strIn_trans "bed" "bedroom" (pyLower text) (by decide) hbedroom
  refine mood_override_of_find? text ("bedtime", ["bed", "sleep", "bedtime", "good night",
    "goodnight", "going to bed", "sleepy", "night night"]) ?_
  have hb : (["bed", "sleep", "bedtime", "good night", "goodnight", "going to bed",
      "sleepy", "night night"].any (fun kw => strIn kw (pyLower text))) = true := by
    simp [List.any_cons, hbed]
  simp [moodKeywords, List.find?_cons, h1, h2, h3, h4, hb]

/-- Witness for C10: the amended statement applied to the concrete
utterance turn on the bedroom lights. -/
theorem bedroom_defaults_to_bedtime_witness :
    dictGet (extractEntities "turn on the bedroom lights") "mood" = some (PyVal.s "bedtime") ∧
    dictGet (extractEntities "turn on the bedroom lights") "action" = some (PyVal.s "mood") :=
  bedroom_defaults_to_bedtime.2 "turn on the bedroom lights"
    (by decide) (by decide) (by decide) (by decide) (by decide)

/-- C2: when the matched workflow reports a FAILURE result, process_input
calls the language model with exactly the synthesized failure prompt and
returns the model output; any value it returns is the model output, never
the raw error string directly. -/
theorem process_input_failure_rephrases
    (llm : String → Except PyExn String) (m : WorkflowManager) (text : String)
    (w : Workflow) (result : WorkflowResult)
    (hfind : m.findMatchingWorkflow text = some w)
    (hexec : w.execute text (extractEntities text) = Except.ok result)
    (hstatus : result.status = WorkflowStatus.failure) :
    processInput llm m text = llm (failureContext text w.name result) ∧
    (∀ s : String, processInput llm m text = Except.ok s →
        llm (failureContext text w.name result) = Except.ok s) := by
  have hmain : processInput llm m text = llm (failureContext text w.name result) := by
    unfold processInput
    rw [hfind]
    dsimp only
    obtain ⟨st, msg, dat, err⟩ := result
    dsimp only at hstatus
    subst hstatus
    rw [hexec]
    rfl
  exact ⟨hmain, fun s hs => by rw [hmain] at hs; exact hs⟩

/-- Witness for C2: the unconfigured thermostat workflow fails and the
orchestrator returns the rephrasing model output built from the exact
prompt, not the raw error. -/
theorem process_input_failure_rephrases_witness :
    processInput llmEcho thermoManager "check the temperature" =
      Except.ok ("[model] The user asked: " ++ sq ++ "check the temperature" ++ sq ++
        ". The thermostat system responded with an error: No thermostat controller configured") := by
  have h := process_input_failure_rephrases llmEcho thermoManager "check the temperature"
    (thermostatWorkflow Option.none)
    { status := .failure
      message := "The climate control system awaits configuration, sir."
      error := some "No thermostat controller configured" }
    rfl rfl rfl
  exact h.1.trans (by rfl)

/-- C8: a matched workflow result with status SUCCESS, PARTIAL or PENDING
makes process_input return the result message verbatim; only FAILURE takes
the language-model fallback path. -/
theorem process_input_nonfailure_message
    (llm : String → Except PyExn String) (m : WorkflowManager) (text : String)
    (w : Workflow) (result : WorkflowResult)
    (hfind : m.findMatchingWorkflow text = some w)
    (hexec : w.execute text (extractEntities text) = Except.ok result)
    (hstatus : result.status = WorkflowStatus.success ∨
        result.status = WorkflowStatus.partly ∨ result.status = WorkflowStatus.pending) :
    processInput llm m text = Except.ok result.message := by
  unfold processInput
  rw [hfind]
  dsimp only
  obtain ⟨st, msg, dat, err⟩ := result
  rcases hstatus with h | h | h <;> (dsimp only at h; subst h; rw [hexec]; rfl)

/-- Witness for C8: a workflow reporting a PARTIAL result has its message
surfaced verbatim by process_input. -/
theorem process_input_nonfailure_message_witness :
    processInput llmEcho (emptyManager.register partlySkill) "frob the widget" =
      Except.ok "Some actions succeeded, sir." :=
  process_input_nonfailure_message llmEcho (emptyManager.register partlySkill)
    "frob the widget" partlySkill
    { status := .partly, message := "Some actions succeeded, sir." }
    rfl rfl (Or.inr (Or.inl rfl))
